import Mathlib

/-!
Verification of the message-ingestion service of the rd-rust repository
(hw-11 server together with the hw-09 common crate and client).

The embedding works over byte lists (`List Nat`, each element intended to be
below 256).  Strings are represented by their UTF-8 byte sequences, so the
Rust `String` fields of `Message` become `List Nat` here; equality of the
byte sequences coincides with equality of the strings.

The wire codec models `serde_cbor::to_vec` / `serde_cbor::from_slice` for the
`Message` enum of hw-09/common/src/lib.rs: an externally tagged enum becomes a
one-entry CBOR map from the variant-name text string to the variant payload;
a tuple variant payload is a two-element CBOR array; a `Vec<u8>` field is
serialized through serde's generic sequence impl, i.e. as a CBOR array of
unsigned integers; heads are written in the minimal-width form that
serde_cbor's serializer emits.  The decoder mirrors the deserializer on that
canonical subset and, like `from_slice`, rejects trailing bytes.
-/

namespace RdRust

/-- The `Message` enum of hw-09/common/src/lib.rs.  The `String` fields are
represented by their UTF-8 byte sequences. -/
inductive Message where
  | File (name : List Nat) (data : List Nat)
  | Image (name : List Nat) (data : List Nat)
  | Text (content : List Nat)
deriving DecidableEq, Repr

/-- UTF-8 bytes of the variant name "File". -/
def fileTag : List Nat := [70, 105, 108, 101]

/-- UTF-8 bytes of the variant name "Image". -/
def imageTag : List Nat := [73, 109, 97, 103, 101]

/-- UTF-8 bytes of the variant name "Text". -/
def textTag : List Nat := [84, 101, 120, 116]

/-- Big-endian byte expansion of `n` into exactly `k` bytes. -/
def beBytes : Nat → Nat → List Nat
  | 0, _ => []
  | k + 1, n => n / 256 ^ k % 256 :: beBytes k (n % 256 ^ k)

/-- Minimal-width CBOR head for major type `major` and argument `n`, as
written by serde_cbor's serializer. -/
def encodeHead (major n : Nat) : List Nat :=
  if n < 24 then [32 * major + n]
  else if n < 2 ^ 8 then (32 * major + 24) :: beBytes 1 n
  else if n < 2 ^ 16 then (32 * major + 25) :: beBytes 2 n
  else if n < 2 ^ 32 then (32 * major + 26) :: beBytes 4 n
  else (32 * major + 27) :: beBytes 8 n

/-- Read `k` big-endian bytes, folding them onto the accumulator. -/
def readBE : Nat → Nat → List Nat → Option (Nat × List Nat)
  | 0, acc, l => some (acc, l)
  | _ + 1, _, [] => none
  | k + 1, acc, b :: l => readBE k (256 * acc + b) l

/-- Decode the argument of a CBOR head given its additional-information
bits.  Indefinite lengths and reserved values are rejected, as serde_cbor
does for the places this codec is used. -/
def decodeHeadArg (ai : Nat) (l : List Nat) : Option (Nat × List Nat) :=
  if ai < 24 then some (ai, l)
  else if ai = 24 then readBE 1 0 l
  else if ai = 25 then readBE 2 0 l
  else if ai = 26 then readBE 4 0 l
  else if ai = 27 then readBE 8 0 l
  else none

/-- Decode a CBOR head into major type, argument and remaining input. -/
def decodeHead : List Nat → Option (Nat × Nat × List Nat)
  | [] => none
  | b :: l =>
    match decodeHeadArg (b % 32) l with
    | some (n, r) => some (b / 32, n, r)
    | none => none

/-- CBOR text string: head of major type 3 followed by the UTF-8 bytes. -/
def encodeStr (s : List Nat) : List Nat := encodeHead 3 s.length ++ s

/-- Decode a CBOR text string, returning its bytes and the rest. -/
def decodeStr (l : List Nat) : Option (List Nat × List Nat) :=
  match decodeHead l with
  | some (maj, n, r) =>
    if maj = 3 ∧ n ≤ r.length then some (r.take n, r.drop n) else none
  | none => none

/-- Element-wise encoding of a `Vec<u8>`: serde's generic sequence impl
writes each byte as a CBOR unsigned integer. -/
def encodeUints : List Nat → List Nat
  | [] => []
  | b :: t => encodeHead 0 b ++ encodeUints t

/-- Read `k` CBOR unsigned integers, each required to fit in a `u8`. -/
def readUints : Nat → List Nat → Option (List Nat × List Nat)
  | 0, l => some ([], l)
  | k + 1, l =>
    match decodeHead l with
    | some (maj, v, r) =>
      if maj = 0 ∧ v < 256 then
        match readUints k r with
        | some (ds, r1) => some (v :: ds, r1)
        | none => none
      else none
    | none => none

/-- Decode a `Vec<u8>`: a CBOR array of unsigned integers. -/
def decodeByteSeq (l : List Nat) : Option (List Nat × List Nat) :=
  match decodeHead l with
  | some (maj, n, r) => if maj = 4 then readUints n r else none
  | none => none

/-- Encoding of a tuple variant `tag(name, data)`: a one-entry map from the
variant name to a two-element array of the name string and the byte
sequence. -/
def encodeNamed (tag name data : List Nat) : List Nat :=
  encodeHead 5 1 ++ encodeStr tag ++ encodeHead 4 2 ++ encodeStr name ++
    encodeHead 4 data.length ++ encodeUints data

/-- serde_cbor::to_vec for `Message` (hw-09 client send_message serializes
with exactly this call). -/
def encode : Message → List Nat
  | .File name data => encodeNamed fileTag name data
  | .Image name data => encodeNamed imageTag name data
  | .Text content => encodeHead 5 1 ++ encodeStr textTag ++ encodeStr content

/-- Decode the payload of a tuple variant: a two-element array holding a
text string and a byte sequence. -/
def decodeNamed (mk : List Nat → List Nat → Message) (l : List Nat) :
    Option (Message × List Nat) :=
  match decodeHead l with
  | some (maj, n, r) =>
    if maj = 4 ∧ n = 2 then
      match decodeStr r with
      | some (name, r1) =>
        match decodeByteSeq r1 with
        | some (data, r2) => some (mk name data, r2)
        | none => none
      | none => none
    else none
  | none => none

/-- Decode one `Message` value, returning the remaining input. -/
def decodeMessage (l : List Nat) : Option (Message × List Nat) :=
  match decodeHead l with
  | some (maj, n, r) =>
    if maj = 5 ∧ n = 1 then
      match decodeStr r with
      | some (tag, r1) =>
        if tag = fileTag then decodeNamed Message.File r1
        else if tag = imageTag then decodeNamed Message.Image r1
        else if tag = textTag then
          match decodeStr r1 with
          | some (c, r2) => some (Message.Text c, r2)
          | none => none
        else none
      | none => none
    else none
  | none => none

/-- serde_cbor::from_slice for `Message` (hw-11 server handle_client):
parses one value and rejects trailing bytes. -/
def decode (l : List Nat) : Option Message :=
  match decodeMessage l with
  | some (m, []) => some m
  | _ => none

/-- Well-formedness of a `Message` as it arises from the Rust values: field
lengths fit in a `u64` and data bytes fit in a `u8` (string content bytes
are passed through verbatim by the codec, so they need no bound here). -/
def wfMessage : Message → Prop
  | .File name data =>
      name.length < 2 ^ 64 ∧ data.length < 2 ^ 64 ∧ ∀ b ∈ data, b < 256
  | .Image name data =>
      name.length < 2 ^ 64 ∧ data.length < 2 ^ 64 ∧ ∀ b ∈ data, b < 256
  | .Text content => content.length < 2 ^ 64

instance : DecidablePred wfMessage := by
  intro m
  cases m <;> simp only [wfMessage] <;> infer_instance

/-! ## Effect-trace model of the hw-11 server

Each server function is embedded as a function producing the list of
observable effects it performs, in order.  Filesystem outcomes (whether a
directory creation or write succeeds, and which paths exist) are supplied by
an `FSModel`; the image codec of the image crate is supplied as a predicate
saying which byte sequences load successfully.  Paths are byte lists, like
all strings in this development. -/

/-- Observable effects of the server, in the order they are performed. -/
inductive Effect where
  | mkdir (dir : List Nat)
  | statCheck (path : List Nat)
  | fsWrite (path : List Nat) (data : List Nat)
  | savePng (path : List Nat)
  | imgDecodeAttempt (data : List Nat)
  | printText (s : List Nat)
  | logInfo (s : String)
  | logError (s : String)
  | logErrorRaw (raw : List Nat)
  | panic (msg : String)
deriving DecidableEq, Repr

/-- Environment supplying filesystem outcomes to the embedded server
functions: which paths the metadata check reports as existing, and whether
directory creations and writes succeed. -/
structure FSModel where
  fileExists : List Nat → Bool
  filesMkdirOk : Bool
  imagesMkdirOk : Bool
  writeOk : Bool

/-- The FILE_STORE constant "files/" of hw-11 server, as UTF-8 bytes. -/
def fileStorePath : List Nat := [102, 105, 108, 101, 115, 47]

/-- The IMAGE_STORE constant "images/" of hw-11 server, as UTF-8 bytes. -/
def imageStorePath : List Nat := [105, 109, 97, 103, 101, 115, 47]

/-- Decimal digits of a natural number, as UTF-8 bytes; models formatting
the u64 Unix timestamp with the Display impl. -/
def natDigits (n : Nat) : List Nat := (Nat.repr n).toList.map Char.toNat

/-- PathBuf::from(base).join(f) where base already ends in a slash (both
store constants do): the joined path is base ++ f unless f is absolute, in
which case it replaces the base. -/
def pathJoin (base f : List Nat) : List Nat :=
  if f.head? = some 47 then f else base ++ f

/-- Path::file_name: the component after the last slash (byte 47). -/
def lastComponent (p : List Nat) : List Nat :=
  (p.reverse.takeWhile (fun c => decide (c ≠ 47))).reverse

/-- Path::with_file_name: replace everything after the last slash. -/
def withFileName (p newName : List Nat) : List Nat :=
  p.take (p.length - (lastComponent p).length) ++ newName

/-- Rust file_stem/extension semantics on a file name (no slashes): split
at the final dot (byte 46); a name with no dot, or whose only dot is
leading, has no extension and is its own stem. -/
def extSplit (f : List Nat) : List Nat × Option (List Nat) :=
  let extRev := f.reverse.takeWhile (fun c => decide (c ≠ 46))
  if extRev.length = f.length then (f, none)
  else if f.length - extRev.length - 1 = 0 then (f, none)
  else (f.take (f.length - extRev.length - 1), some extRev.reverse)

/-- make_path_unique of hw-11 server: insert (an underscore and) the Unix
timestamp before the extension of the final path component, or append it
when there is no extension. -/
def make_path_unique (file_path : List Nat) (timestamp : Nat) : List Nat :=
  let fname := lastComponent file_path
  let new_filename :=
    match (extSplit fname).2 with
    | some ext => (extSplit fname).1 ++ [95] ++ natDigits timestamp ++ [46] ++ ext
    | none => (extSplit fname).1 ++ [95] ++ natDigits timestamp
  withFileName file_path new_filename

/-- save_file of hw-11 server.  create_dir_all and tokio::fs::write are
called through .expect, so their failures are panics, not log entries; the
metadata existence check selects between the joined path and the
disambiguated one. -/
def save_file (fs : FSModel) (filename data : List Nat) (ts : Nat) :
    List Effect :=
  Effect.logInfo "Identified message as a file." ::
  Effect.mkdir fileStorePath ::
  if fs.filesMkdirOk = false then [Effect.panic "Could not create files directory"]
  else
    let file_path := pathJoin fileStorePath filename
    let final_path :=
      if fs.fileExists file_path then make_path_unique file_path ts else file_path
    Effect.logInfo "Trying to save the file" ::
    Effect.statCheck file_path ::
    Effect.logInfo "New file path" ::
    Effect.fsWrite final_path data ::
    if fs.writeOk = false then [Effect.panic "Could not write file"]
    else [Effect.logInfo "Saved the file."]

/-- save_as_png of hw-11 server: load the image from memory (attempting the
decode), then save it under IMAGE_STORE ++ filename ++ "_" ++ timestamp ++
".png" (plain string formatting, no path joining, no existence check).
Returns the effects and whether the call returned Ok. -/
def save_as_png (imgOk : List Nat → Bool) (fs : FSModel)
    (data filename : List Nat) (ts : Nat) : List Effect × Bool :=
  if imgOk data = false then ([Effect.imgDecodeAttempt data], false)
  else
    let file_path :=
      imageStorePath ++ filename ++ [95] ++ natDigits ts ++ [46, 112, 110, 103]
    ([Effect.imgDecodeAttempt data, Effect.logInfo "Saved the image as",
      Effect.savePng file_path], fs.writeOk)

/-- save_image of hw-11 server: create_dir_all with a logged error on
failure (early return), then save_as_png, logging its outcome. -/
def save_image (imgOk : List Nat → Bool) (fs : FSModel)
    (filename data : List Nat) (ts : Nat) : List Effect :=
  Effect.logInfo "Identified message as an image." ::
  Effect.mkdir imageStorePath ::
  if fs.imagesMkdirOk = false then [Effect.logError "Could not create images directory"]
  else
    (save_as_png imgOk fs data filename ts).1 ++
    (if (save_as_png imgOk fs data filename ts).2 then
      [Effect.logInfo "Image saved successfully."]
    else [Effect.logError "Could not save image as PNG"])

/-- process_message of hw-11 server: route by variant. -/
def process_message (imgOk : List Nat → Bool) (fs : FSModel)
    (message : Message) (ts : Nat) : List Effect :=
  match message with
  | .File filename data => save_file fs filename data ts
  | .Image filename data => save_image imgOk fs filename data ts
  | .Text text => [Effect.printText text]

/-- read_exact over a finite stream: succeeds iff at least n bytes remain,
consuming exactly n. -/
def readExact (n : Nat) (s : List Nat) : Option (List Nat × List Nat) :=
  if n ≤ s.length then some (s.take n, s.drop n) else none

/-- u32::from_be_bytes on a byte list. -/
def u32be (l : List Nat) : Nat := l.foldl (fun acc b => 256 * acc + b) 0

/-- Result of one connection handler run: the effects performed and the
number of bytes consumed from the stream. -/
structure HCResult where
  effects : List Effect
  consumed : Nat
deriving DecidableEq, Repr

/-- handle_client of hw-11 server: read the 4-byte big-endian length
prefix, reject lengths above 10 MiB before reading any payload byte, read
exactly len payload bytes, deserialize, and dispatch. -/
def handle_client (imgOk : List Nat → Bool) (fs : FSModel)
    (stream : List Nat) (ts : Nat) : HCResult :=
  match readExact 4 stream with
  | none => ⟨[Effect.logError "Failed to read message length"], stream.length⟩
  | some (len_bytes, rest) =>
    let len := u32be len_bytes
    if 10 * 1024 * 1024 < len then
      ⟨[Effect.logInfo "Message length received",
        Effect.logError "Message length too large"], 4⟩
    else
      match readExact len rest with
      | none =>
        ⟨[Effect.logInfo "Message length received",
          Effect.logInfo "Buffer allocated",
          Effect.logError "Failed to read message"], stream.length⟩
      | some (buffer, _) =>
        match decode buffer with
        | some message =>
          ⟨Effect.logInfo "Message length received" ::
           Effect.logInfo "Buffer allocated" ::
           Effect.logInfo "Message received" ::
           Effect.logInfo "Received message" ::
           process_message imgOk fs message ts, 4 + len⟩
        | none =>
          ⟨[Effect.logInfo "Message length received",
            Effect.logInfo "Buffer allocated",
            Effect.logInfo "Message received",
            Effect.logError "Deserialization error",
            Effect.logErrorRaw buffer], 4 + len⟩

/-- Boolean test for persistence effects (file writes and image saves). -/
def isPersist : Effect → Bool
  | .fsWrite _ _ => true
  | .savePng _ => true
  | _ => false

/-- Boolean test for file-write effects. -/
def isFsWrite : Effect → Bool
  | .fsWrite _ _ => true
  | _ => false

/-- Boolean test for image-save effects. -/
def isSavePng : Effect → Bool
  | .savePng _ => true
  | _ => false

/-- Boolean test for existence checks. -/
def isStatCheck : Effect → Bool
  | .statCheck _ => true
  | _ => false

/-- Boolean test for error-log entries (the error! sink). -/
def isErrorLog : Effect → Bool
  | .logError _ => true
  | .logErrorRaw _ => true
  | _ => false

/-- Boolean test for any filesystem effect (directory creation, existence
check, write, or image save). -/
def isFsEffect : Effect → Bool
  | .mkdir _ => true
  | .statCheck _ => true
  | .fsWrite _ _ => true
  | .savePng _ => true
  | _ => false

/-! ## Listener / shutdown model

start_server of hw-11 server is a select loop racing the accept future
against the broadcast shutdown receiver.  One loop iteration resolves one
of the two branches; a run of the loop is therefore a sequence of resolved
events.  Accepting spawns a detached handler task; the shutdown branch
breaks out of the loop, after which main's select returns and the process
ends without joining or aborting any spawned task. -/

/-- One resolved select-branch of the accept loop. -/
inductive LoopEvent where
  | accept (c : Nat)
  | shutdown
deriving DecidableEq, Repr

/-- Actions the listener can take on its spawned handler tasks.  The cancel
and wait actions exist in the vocabulary so their absence from every trace
is expressible; the source never performs them (handles from tokio::spawn
are dropped, and the loop break leads straight to process exit). -/
inductive ServerAction where
  | spawnHandler (c : Nat)
  | stopAccepting
  | cancelHandler (c : Nat)
  | awaitHandler (c : Nat)
deriving DecidableEq, Repr

/-- start_server of hw-11 server as a trace over resolved loop events:
each accepted connection spawns a handler; the first shutdown event stops
the accept loop and nothing after it is processed. -/
def start_server : List LoopEvent → List ServerAction
  | [] => []
  | .accept c :: rest => ServerAction.spawnHandler c :: start_server rest
  | .shutdown :: _ => [ServerAction.stopAccepting]

/-- Connection ids accepted before the first shutdown event. -/
def accepted : List LoopEvent → List Nat
  | [] => []
  | .accept c :: rest => c :: accepted rest
  | .shutdown :: _ => []

/-- Whole-system run: the listener trace together with each spawned
handler's own run.  The listener trace is built without consulting the
handler results, reflecting that tokio::spawn detaches the tasks: a
handler failure (or panic) cannot feed back into the accept loop. -/
def systemRun (events : List LoopEvent) (streams : Nat → List Nat)
    (imgOk : List Nat → Bool) (fs : FSModel) (ts : Nat) :
    List ServerAction × List (Nat × HCResult) :=
  (start_server events,
   (accepted events).map fun c => (c, handle_client imgOk fs (streams c) ts))

theorem readBE_beBytes (k : Nat) :
    ∀ (acc n : Nat) (rest : List Nat), n < 256 ^ k →
      readBE k acc (beBytes k n ++ rest) = some (acc * 256 ^ k + n, rest) := by
  induction k with
  | zero =>
    intro acc n rest h
    interval_cases n
    simp [beBytes, readBE]
  | succ k ih =>
    intro acc n rest h
    have hpos : 0 < 256 ^ k := Nat.pos_pow_of_pos k (by omega)
    have hmod : n % 256 ^ k < 256 ^ k := Nat.mod_lt _ hpos
    have hdiv : n / 256 ^ k < 256 := by
      rw [Nat.div_lt_iff_lt_mul hpos]
      calc n < 256 ^ k * 256 := by rw [pow_succ] at h; exact h
        _ = 256 * 256 ^ k := by ring
    rw [beBytes]
    rw [List.cons_append, readBE, ih _ _ _ hmod]
    congr 1
    congr 1
    rw [Nat.mod_eq_of_lt hdiv]
    have hdm := Nat.div_add_mod n (256 ^ k)
    calc (256 * acc + n / 256 ^ k) * 256 ^ k + n % 256 ^ k
        = acc * (256 ^ k * 256) + (256 ^ k * (n / 256 ^ k) + n % 256 ^ k) := by
          ring
      _ = acc * (256 ^ k * 256) + n := by rw [hdm]
      _ = acc * 256 ^ (k + 1) + n := by ring_nf

theorem decodeHead_encodeHead (major n : Nat) (rest : List Nat)
    (hm : major < 8) (hn : n < 2 ^ 64) :
    decodeHead (encodeHead major n ++ rest) = some (major, n, rest) := by
  have h32 : ∀ c : Nat, c < 32 → (32 * major + c) % 32 = c ∧
      (32 * major + c) / 32 = major := by
    intro c hc
    omega
  rw [encodeHead]
  by_cases h24 : n < 24
  · obtain ⟨hmod, hdiv⟩ := h32 n (by omega)
    simp [h24, decodeHead, decodeHeadArg, hmod, hdiv]
  · obtain ⟨hmod, hdiv⟩ := h32 24 (by omega)
    by_cases h8 : n < 2 ^ 8
    · have h := readBE_beBytes 1 0 n rest (by simpa using h8)
      simp only [h24, if_false, h8, if_true]
      rw [List.cons_append, decodeHead, hmod, decodeHeadArg]
      simp only [show ¬ (24 : Nat) < 24 by omega, if_false, if_true, h]
      simp [hdiv]
    · obtain ⟨hmod25, hdiv25⟩ := h32 25 (by omega)
      by_cases h16 : n < 2 ^ 16
      · have h := readBE_beBytes 2 0 n rest (by simpa using h16)
        simp only [h24, if_false, h8, h16, if_true]
        rw [List.cons_append, decodeHead, hmod25, decodeHeadArg]
        simp only [show ¬ (25 : Nat) < 24 by omega, show (25 : Nat) ≠ 24 by omega,
          if_false, if_true, h]
        simp [hdiv25]
      · obtain ⟨hmod26, hdiv26⟩ := h32 26 (by omega)
        by_cases hw : n < 2 ^ 32
        · have h := readBE_beBytes 4 0 n rest (by simpa using hw)
          simp only [h24, if_false, h8, h16, hw, if_true]
          rw [List.cons_append, decodeHead, hmod26, decodeHeadArg]
          simp only [show ¬ (26 : Nat) < 24 by omega, show (26 : Nat) ≠ 24 by omega,
            show (26 : Nat) ≠ 25 by omega, if_false, if_true, h]
          simp [hdiv26]
        · obtain ⟨hmod27, hdiv27⟩ := h32 27 (by omega)
          have h := readBE_beBytes 8 0 n rest (by simpa using hn)
          simp only [h24, if_false, h8, h16, hw]
          rw [List.cons_append, decodeHead, hmod27, decodeHeadArg]
          simp only [show ¬ (27 : Nat) < 24 by omega, show (27 : Nat) ≠ 24 by omega,
            show (27 : Nat) ≠ 25 by omega, show (27 : Nat) ≠ 26 by omega,
            if_false, if_true, h]
          simp [hdiv27]

theorem decodeStr_encodeStr (s rest : List Nat) (h : s.length < 2 ^ 64) :
    decodeStr (encodeStr s ++ rest) = some (s, rest) := by
  rw [encodeStr, List.append_assoc, decodeStr,
    decodeHead_encodeHead 3 s.length (s ++ rest) (by omega) h]
  simp [List.take_left, List.drop_left]

theorem readUints_encodeUints (d : List Nat) :
    ∀ rest : List Nat, (∀ b ∈ d, b < 256) →
      readUints d.length (encodeUints d ++ rest) = some (d, rest) := by
  induction d with
  | nil => intro rest _; simp [encodeUints, readUints]
  | cons b t ih =>
    intro rest hb
    have hblt : b < 256 := hb b (by simp)
    rw [encodeUints, List.append_assoc, List.length_cons, readUints,
      decodeHead_encodeHead 0 b (encodeUints t ++ rest) (by omega) (by omega)]
    simp only [show (0 : Nat) = 0 by rfl, hblt, and_true, if_true, true_and]
    rw [ih rest (fun x hx => hb x (by simp [hx]))]

theorem decodeByteSeq_encode (d rest : List Nat) (hl : d.length < 2 ^ 64)
    (hb : ∀ b ∈ d, b < 256) :
    decodeByteSeq (encodeHead 4 d.length ++ encodeUints d ++ rest) =
      some (d, rest) := by
  rw [List.append_assoc, decodeByteSeq,
    decodeHead_encodeHead 4 d.length (encodeUints d ++ rest) (by omega) hl]
  simp only [if_true, show (4 : Nat) = 4 by rfl]
  exact readUints_encodeUints d rest hb

theorem decodeNamed_encodeNamed (mk : List Nat → List Nat → Message)
    (name data rest : List Nat) (hn : name.length < 2 ^ 64)
    (hd : data.length < 2 ^ 64) (hb : ∀ b ∈ data, b < 256) :
    decodeNamed mk (encodeHead 4 2 ++ encodeStr name ++
        encodeHead 4 data.length ++ encodeUints data ++ rest) =
      some (mk name data, rest) := by
  simp only [List.append_assoc]
  rw [decodeNamed, decodeHead_encodeHead 4 2 _ (by omega) (by omega)]
  simp only [show ((4 : Nat) = 4 ∧ (2 : Nat) = 2) = True by simp, if_true]
  rw [decodeStr_encodeStr name _ hn]
  have h := decodeByteSeq_encode data rest hd hb
  rw [List.append_assoc] at h
  simp [h]

theorem decodeMessage_encode (m : Message) (rest : List Nat)
    (h : wfMessage m) : decodeMessage (encode m ++ rest) = some (m, rest) := by
  cases m with
  | File name data =>
    obtain ⟨hn, hd, hb⟩ := h
    rw [encode, encodeNamed]
    simp only [List.append_assoc]
    rw [decodeMessage, decodeHead_encodeHead 5 1 _ (by omega) (by omega)]
    simp only [show ((5 : Nat) = 5 ∧ (1 : Nat) = 1) = True by simp, if_true]
    rw [decodeStr_encodeStr fileTag _ (by decide)]
    simp only [show (fileTag = fileTag) = True by simp, if_true]
    have h := decodeNamed_encodeNamed Message.File name data rest hn hd hb
    simp only [List.append_assoc] at h
    simp [h]
  | Image name data =>
    obtain ⟨hn, hd, hb⟩ := h
    rw [encode, encodeNamed]
    simp only [List.append_assoc]
    rw [decodeMessage, decodeHead_encodeHead 5 1 _ (by omega) (by omega)]
    simp only [show ((5 : Nat) = 5 ∧ (1 : Nat) = 1) = True by simp, if_true]
    rw [decodeStr_encodeStr imageTag _ (by decide)]
    simp only [show (imageTag = fileTag) = False by decide,
      show (imageTag = imageTag) = True by simp, if_true, if_false]
    have h := decodeNamed_encodeNamed Message.Image name data rest hn hd hb
    simp only [List.append_assoc] at h
    simp [h]
  | Text content =>
    rw [encode]
    simp only [List.append_assoc]
    rw [decodeMessage, decodeHead_encodeHead 5 1 _ (by omega) (by omega)]
    simp only [show ((5 : Nat) = 5 ∧ (1 : Nat) = 1) = True by simp, if_true]
    rw [decodeStr_encodeStr textTag _ (by decide)]
    simp only [show (textTag = fileTag) = False by decide,
      show (textTag = imageTag) = False by decide,
      show (textTag = textTag) = True by simp, if_true, if_false]
    rw [decodeStr_encodeStr content rest h]
    simp

theorem takeWhile_append_all (p : Nat → Bool) (l₁ l₂ : List Nat)
    (h : ∀ c ∈ l₁, p c = true) :
    (l₁ ++ l₂).takeWhile p = l₁ ++ l₂.takeWhile p := by
  induction l₁ with
  | nil => simp
  | cons a t ih =>
    rw [List.cons_append, List.takeWhile_cons, h a (by simp),
      ih (fun c hc => h c (by simp [hc]))]
    simp

theorem lastComponent_append (base name : List Nat) (h47 : (47 : Nat) ∉ name)
    (hb : ∃ t, base.reverse = 47 :: t) :
    lastComponent (base ++ name) = name := by
  obtain ⟨t, ht⟩ := hb
  have hall : ∀ c ∈ name.reverse, (fun c => decide (c ≠ 47)) c = true := by
    intro c hc
    simp only [List.mem_reverse] at hc
    simp only [decide_eq_true_iff]
    intro he
    exact h47 (he ▸ hc)
  rw [lastComponent, List.reverse_append, ht,
    takeWhile_append_all _ _ _ hall, List.takeWhile_cons]
  simp

theorem withFileName_append (base name new : List Nat)
    (h47 : (47 : Nat) ∉ name) (hb : ∃ t, base.reverse = 47 :: t) :
    withFileName (base ++ name) new = base ++ new := by
  rw [withFileName, lastComponent_append base name h47 hb]
  have hl : (base ++ name).length - name.length = base.length := by
    simp
  rw [hl, List.take_left]

theorem make_path_unique_append (name : List Nat) (ts : Nat)
    (h47 : (47 : Nat) ∉ name) :
    make_path_unique (fileStorePath ++ name) ts =
      fileStorePath ++
        (match (extSplit name).2 with
         | some ext => (extSplit name).1 ++ [95] ++ natDigits ts ++ [46] ++ ext
         | none => (extSplit name).1 ++ [95] ++ natDigits ts) := by
  simp only [make_path_unique,
    lastComponent_append fileStorePath name h47
      ⟨[115, 101, 108, 105, 102], by decide⟩]
  exact withFileName_append fileStorePath name _ h47
    ⟨[115, 101, 108, 105, 102], by decide⟩

theorem readExact_append (l rest : List Nat) (n : Nat) (h : l.length = n) :
    readExact n (l ++ rest) = some (l, rest) := by
  subst h
  rw [readExact, if_pos (by simp), List.take_left, List.drop_left]

theorem pathJoin_not_absolute (base f : List Nat) (h47 : (47 : Nat) ∉ f) :
    pathJoin base f = base ++ f := by
  rw [pathJoin, if_neg]
  intro hh
  cases f with
  | nil => simp at hh
  | cons a t =>
    simp only [List.head?_cons, Option.some.injEq] at hh
    exact h47 (by simp [hh])

/-- C1: decoding the bytes produced by encoding any of the three Message
variants, including empty strings and zero-length byte sequences, yields
the original message: decode (encode m) = some m for every well-formed
message (field lengths fitting in u64, data bytes fitting in u8, as every
Rust value satisfies). -/
theorem decode_encode_roundtrip (m : Message) (h : wfMessage m) :
    decode (encode m) = some m := by
  have h1 := decodeMessage_encode m [] h
  rw [List.append_nil] at h1
  rw [decode, h1]

theorem decode_encode_roundtrip_witness :
    (wfMessage (Message.File [] []) ∧
      decode (encode (Message.File [] [])) = some (Message.File [] [])) ∧
    (wfMessage (Message.Image [110, 46, 106] [0, 255, 128]) ∧
      decode (encode (Message.Image [110, 46, 106] [0, 255, 128])) =
        some (Message.Image [110, 46, 106] [0, 255, 128])) ∧
    (wfMessage (Message.Text []) ∧
      decode (encode (Message.Text [])) = some (Message.Text [])) :=
  ⟨⟨by decide, decode_encode_roundtrip _ (by decide)⟩,
   ⟨by decide, decode_encode_roundtrip _ (by decide)⟩,
   ⟨by decide, decode_encode_roundtrip _ (by decide)⟩⟩

/-- C2: when the 4-byte big-endian length prefix decodes to a value above
10 MiB, handle_client logs the oversize error and returns having consumed
exactly the 4 prefix bytes — no payload byte is read and nothing is
persisted. -/
theorem handle_client_oversized_frame (imgOk : List Nat → Bool)
    (fs : FSModel) (len_bytes rest : List Nat) (ts : Nat)
    (h4 : len_bytes.length = 4)
    (hover : 10 * 1024 * 1024 < u32be len_bytes) :
    handle_client imgOk fs (len_bytes ++ rest) ts =
      ⟨[Effect.logInfo "Message length received",
        Effect.logError "Message length too large"], 4⟩ ∧
    (handle_client imgOk fs (len_bytes ++ rest) ts).effects.filter isPersist
      = [] := by
  have hr := readExact_append len_bytes rest 4 h4
  have h1 : handle_client imgOk fs (len_bytes ++ rest) ts =
      ⟨[Effect.logInfo "Message length received",
        Effect.logError "Message length too large"], 4⟩ := by
    rw [handle_client, hr]
    simp [if_pos hover]
  exact ⟨h1, by rw [h1]; decide⟩

theorem handle_client_oversized_frame_witness :
    ([1, 0, 0, 0] : List Nat).length = 4 ∧
    10 * 1024 * 1024 < u32be [1, 0, 0, 0] ∧
    (handle_client (fun _ => true) ⟨fun _ => false, true, true, true⟩
        ([1, 0, 0, 0] ++ [7, 7, 7]) 0 =
      ⟨[Effect.logInfo "Message length received",
        Effect.logError "Message length too large"], 4⟩ ∧
    (handle_client (fun _ => true) ⟨fun _ => false, true, true, true⟩
        ([1, 0, 0, 0] ++ [7, 7, 7]) 0).effects.filter isPersist = []) :=
  ⟨by decide, by decide,
   handle_client_oversized_frame _ _ _ _ _ (by decide) (by decide)⟩

/-- C3: when the candidate path files/name already exists, save_file writes
exactly once, to the path produced by make_path_unique — the stem of the
name followed by an underscore, the Unix timestamp in seconds and the
extension (or just appended after the stem when the name has no
extension) — and the only existence check performed is the one on the
candidate: the alternate path is never re-checked and there is no retry
loop (the filesystem model fs is arbitrary, so the write happens even when
the alternate also exists). -/
theorem save_file_collision_disambiguation (fs : FSModel)
    (filename data : List Nat) (ts : Nat)
    (hmk : fs.filesMkdirOk = true)
    (h47 : (47 : Nat) ∉ filename) (hne : filename ≠ [])
    (hex : fs.fileExists (fileStorePath ++ filename) = true) :
    (save_file fs filename data ts).filter isFsWrite =
      [Effect.fsWrite (make_path_unique (fileStorePath ++ filename) ts) data] ∧
    (save_file fs filename data ts).filter isStatCheck =
      [Effect.statCheck (fileStorePath ++ filename)] ∧
    make_path_unique (fileStorePath ++ filename) ts =
      fileStorePath ++
        (match (extSplit filename).2 with
         | some ext =>
             (extSplit filename).1 ++ [95] ++ natDigits ts ++ [46] ++ ext
         | none => (extSplit filename).1 ++ [95] ++ natDigits ts) := by
  have hpj := pathJoin_not_absolute fileStorePath filename h47
  refine ⟨?_, ?_, make_path_unique_append filename ts h47⟩
  · cases hw : fs.writeOk <;>
      simp [save_file, hmk, hpj, hex, hw, isFsWrite]
  · cases hw : fs.writeOk <;>
      simp [save_file, hmk, hpj, hex, hw, isStatCheck]

theorem save_file_collision_disambiguation_witness :
    ((⟨fun _ => true, true, true, true⟩ : FSModel).filesMkdirOk = true ∧
     (47 : Nat) ∉ ([97, 46, 116, 120, 116] : List Nat) ∧
     ([97, 46, 116, 120, 116] : List Nat) ≠ [] ∧
     (⟨fun _ => true, true, true, true⟩ : FSModel).fileExists
       (fileStorePath ++ [97, 46, 116, 120, 116]) = true) ∧
    ((save_file ⟨fun _ => true, true, true, true⟩ [97, 46, 116, 120, 116]
        [1, 2] 77).filter isFsWrite =
      [Effect.fsWrite (make_path_unique
        (fileStorePath ++ [97, 46, 116, 120, 116]) 77) [1, 2]] ∧
     (save_file ⟨fun _ => true, true, true, true⟩ [97, 46, 116, 120, 116]
        [1, 2] 77).filter isStatCheck =
      [Effect.statCheck (fileStorePath ++ [97, 46, 116, 120, 116])] ∧
     make_path_unique (fileStorePath ++ [97, 46, 116, 120, 116]) 77 =
      fileStorePath ++
        (match (extSplit [97, 46, 116, 120, 116]).2 with
         | some ext => (extSplit [97, 46, 116, 120, 116]).1 ++ [95] ++
             natDigits 77 ++ [46] ++ ext
         | none => (extSplit [97, 46, 116, 120, 116]).1 ++ [95] ++
             natDigits 77)) :=
  ⟨⟨by decide, by decide, by decide, by decide⟩,
   save_file_collision_disambiguation _ _ _ _ (by decide) (by decide)
     (by decide) (by decide)⟩

/-- C4 counterexample: with directory creation failing, save_file emits no
entry at all to the error-log sink — the failure surfaces as a panic from
the .expect call, so the claim that the failure "is a StorageUnavailable
error that is logged" is false of the code. -/
theorem save_file_mkdir_failure_not_logged :
    (save_file ⟨fun _ => false, false, true, true⟩ [97] [1] 0).filter
      isErrorLog = [] ∧
    Effect.panic "Could not create files directory" ∈
      save_file ⟨fun _ => false, false, true, true⟩ [97] [1] 0 := by
  decide

/-- C4 (amended): on File Store put, failure to create the base directory
does not produce a logged error value but a panic (through .expect with
message "Could not create files directory") that aborts the operation
before any write is attempted, and a filesystem write failure likewise
panics ("Could not write file") rather than being logged; because the
handler tasks are detached (tokio::spawn handles are dropped), the
listener's action trace is unaffected by either storage failure. -/
theorem save_file_failure_behavior (fs fs2 : FSModel) (name data : List Nat)
    (ts : Nat) (h1 : fs.filesMkdirOk = false)
    (h2 : fs2.filesMkdirOk = true) (h3 : fs2.writeOk = false) :
    save_file fs name data ts =
      [Effect.logInfo "Identified message as a file.",
       Effect.mkdir fileStorePath,
       Effect.panic "Could not create files directory"] ∧
    (save_file fs name data ts).filter isFsWrite = [] ∧
    (save_file fs name data ts).filter isErrorLog = [] ∧
    Effect.panic "Could not write file" ∈ save_file fs2 name data ts ∧
    (save_file fs2 name data ts).filter isErrorLog = [] ∧
    ∀ (events : List LoopEvent) (streams : Nat → List Nat)
      (imgOk : List Nat → Bool),
      (systemRun events streams imgOk fs ts).1 =
        (systemRun events streams imgOk fs2 ts).1 := by
  refine ⟨?_, ?_, ?_, ?_, ?_, fun _ _ _ => rfl⟩
  · simp [save_file, h1]
  · simp [save_file, h1, isFsWrite]
  · simp [save_file, h1, isErrorLog]
  · simp [save_file, h2, h3]
  · simp [save_file, h2, h3, isErrorLog]

theorem save_file_failure_behavior_witness :
    ((⟨fun _ => false, false, true, true⟩ : FSModel).filesMkdirOk = false ∧
     (⟨fun _ => true, true, true, false⟩ : FSModel).filesMkdirOk = true ∧
     (⟨fun _ => true, true, true, false⟩ : FSModel).writeOk = false) ∧
    (save_file ⟨fun _ => false, false, true, true⟩ [97] [5] 3 =
      [Effect.logInfo "Identified message as a file.",
       Effect.mkdir fileStorePath,
       Effect.panic "Could not create files directory"] ∧
     (save_file ⟨fun _ => false, false, true, true⟩ [97] [5] 3).filter
       isFsWrite = [] ∧
     (save_file ⟨fun _ => false, false, true, true⟩ [97] [5] 3).filter
       isErrorLog = [] ∧
     Effect.panic "Could not write file" ∈
       save_file ⟨fun _ => true, true, true, false⟩ [97] [5] 3 ∧
     (save_file ⟨fun _ => true, true, true, false⟩ [97] [5] 3).filter
       isErrorLog = [] ∧
     ∀ (events : List LoopEvent) (streams : Nat → List Nat)
       (imgOk : List Nat → Bool),
       (systemRun events streams imgOk
          ⟨fun _ => false, false, true, true⟩ 3).1 =
         (systemRun events streams imgOk
            ⟨fun _ => true, true, true, false⟩ 3).1) :=
  ⟨⟨by decide, by decide, by decide⟩,
   save_file_failure_behavior _ _ _ _ _ (by decide) (by decide) (by decide)⟩

/-- C5: process_message routes purely by variant — a Text message is
emitted to the output sink only and produces no filesystem effect at all,
a File message goes to save_file (whose single write lands under the files
store), and an Image message goes to save_image (whose single save lands
under the images store, with no plain file write). -/
theorem process_message_pure_routing (imgOk : List Nat → Bool)
    (fs : FSModel) (c name data : List Nat) (ts : Nat)
    (hmkf : fs.filesMkdirOk = true) (hmki : fs.imagesMkdirOk = true)
    (hne : fs.fileExists (pathJoin fileStorePath name) = false)
    (himg : imgOk data = true) :
    process_message imgOk fs (Message.Text c) ts = [Effect.printText c] ∧
    (process_message imgOk fs (Message.Text c) ts).filter isFsEffect = [] ∧
    process_message imgOk fs (Message.File name data) ts =
      save_file fs name data ts ∧
    (process_message imgOk fs (Message.File name data) ts).filter isFsWrite =
      [Effect.fsWrite (pathJoin fileStorePath name) data] ∧
    (process_message imgOk fs (Message.File name data) ts).filter isSavePng
      = [] ∧
    process_message imgOk fs (Message.Image name data) ts =
      save_image imgOk fs name data ts ∧
    (process_message imgOk fs (Message.Image name data) ts).filter isSavePng
      = [Effect.savePng (imageStorePath ++ name ++ [95] ++ natDigits ts ++
          [46, 112, 110, 103])] ∧
    (process_message imgOk fs (Message.Image name data) ts).filter isFsWrite
      = [] := by
  refine ⟨rfl, by simp [process_message, isFsEffect], rfl, ?_, ?_, rfl,
    ?_, ?_⟩
  · cases hw : fs.writeOk <;>
      simp [process_message, save_file, hmkf, hne, hw, isFsWrite]
  · cases hw : fs.writeOk <;>
      simp [process_message, save_file, hmkf, hne, hw, isSavePng]
  · cases hw : fs.writeOk <;>
      simp [process_message, save_image, save_as_png, hmki, himg, hw,
        isSavePng]
  · cases hw : fs.writeOk <;>
      simp [process_message, save_image, save_as_png, hmki, himg, hw,
        isFsWrite]

theorem process_message_pure_routing_witness :
    ((⟨fun _ => false, true, true, true⟩ : FSModel).filesMkdirOk = true ∧
     (⟨fun _ => false, true, true, true⟩ : FSModel).imagesMkdirOk = true ∧
     (⟨fun _ => false, true, true, true⟩ : FSModel).fileExists
       (pathJoin fileStorePath [110]) = false ∧
     (fun _ => true : List Nat → Bool) [9] = true) ∧
    (process_message (fun _ => true) ⟨fun _ => false, true, true, true⟩
       (Message.Text [104, 105]) 5 = [Effect.printText [104, 105]] ∧
     (process_message (fun _ => true) ⟨fun _ => false, true, true, true⟩
       (Message.Text [104, 105]) 5).filter isFsEffect = [] ∧
     process_message (fun _ => true) ⟨fun _ => false, true, true, true⟩
       (Message.File [110] [9]) 5 =
       save_file ⟨fun _ => false, true, true, true⟩ [110] [9] 5 ∧
     (process_message (fun _ => true) ⟨fun _ => false, true, true, true⟩
       (Message.File [110] [9]) 5).filter isFsWrite =
       [Effect.fsWrite (pathJoin fileStorePath [110]) [9]] ∧
     (process_message (fun _ => true) ⟨fun _ => false, true, true, true⟩
       (Message.File [110] [9]) 5).filter isSavePng = [] ∧
     process_message (fun _ => true) ⟨fun _ => false, true, true, true⟩
       (Message.Image [110] [9]) 5 =
       save_image (fun _ => true) ⟨fun _ => false, true, true, true⟩
         [110] [9] 5 ∧
     (process_message (fun _ => true) ⟨fun _ => false, true, true, true⟩
       (Message.Image [110] [9]) 5).filter isSavePng =
       [Effect.savePng (imageStorePath ++ [110] ++ [95] ++ natDigits 5 ++
         [46, 112, 110, 103])] ∧
     (process_message (fun _ => true) ⟨fun _ => false, true, true, true⟩
       (Message.Image [110] [9]) 5).filter isFsWrite = []) :=
  ⟨⟨by decide, by decide, by decide, by decide⟩,
   process_message_pure_routing _ _ _ _ _ _ (by decide) (by decide)
     (by decide) (by decide)⟩

/-- C6: every successful Image Store put saves to exactly
images/ ++ name ++ underscore ++ unix-seconds ++ ".png" — the timestamp is
always appended to the client-supplied name by plain string formatting,
and no existence check of the computed path is ever performed. -/
theorem save_image_output_path (imgOk : List Nat → Bool) (fs : FSModel)
    (name data : List Nat) (ts : Nat)
    (hmk : fs.imagesMkdirOk = true) (himg : imgOk data = true) :
    (save_image imgOk fs name data ts).filter isSavePng =
      [Effect.savePng (imageStorePath ++ name ++ [95] ++ natDigits ts ++
        [46, 112, 110, 103])] ∧
    (save_image imgOk fs name data ts).filter isStatCheck = [] := by
  constructor <;>
    (cases hw : fs.writeOk <;>
      simp [save_image, save_as_png, hmk, himg, hw, isSavePng, isStatCheck])

theorem save_image_output_path_witness :
    ((⟨fun _ => true, true, true, true⟩ : FSModel).imagesMkdirOk = true ∧
     (fun _ => true : List Nat → Bool) [3] = true) ∧
    ((save_image (fun _ => true) ⟨fun _ => true, true, true, true⟩
        [99, 97, 116] [3] 42).filter isSavePng =
      [Effect.savePng (imageStorePath ++ [99, 97, 116] ++ [95] ++
        natDigits 42 ++ [46, 112, 110, 103])] ∧
     (save_image (fun _ => true) ⟨fun _ => true, true, true, true⟩
        [99, 97, 116] [3] 42).filter isStatCheck = []) :=
  ⟨⟨by decide, by decide⟩,
   save_image_output_path _ _ _ _ _ (by decide) (by decide)⟩

/-- C7: when the frame payload does not decode to a Message, handle_client
logs the deserialization error and the raw payload bytes and returns
without persisting anything. -/
theorem handle_client_decode_failure (imgOk : List Nat → Bool)
    (fs : FSModel) (len_bytes buffer rest : List Nat) (ts : Nat)
    (h4 : len_bytes.length = 4) (hlen : u32be len_bytes = buffer.length)
    (hmax : buffer.length ≤ 10 * 1024 * 1024)
    (hdec : decode buffer = none) :
    handle_client imgOk fs (len_bytes ++ (buffer ++ rest)) ts =
      ⟨[Effect.logInfo "Message length received",
        Effect.logInfo "Buffer allocated",
        Effect.logInfo "Message received",
        Effect.logError "Deserialization error",
        Effect.logErrorRaw buffer], 4 + buffer.length⟩ ∧
    (handle_client imgOk fs (len_bytes ++ (buffer ++ rest)) ts).effects.filter
      isPersist = [] := by
  have hr := readExact_append len_bytes (buffer ++ rest) 4 h4
  have hr2 := readExact_append buffer rest buffer.length rfl
  have h1 : handle_client imgOk fs (len_bytes ++ (buffer ++ rest)) ts =
      ⟨[Effect.logInfo "Message length received",
        Effect.logInfo "Buffer allocated",
        Effect.logInfo "Message received",
        Effect.logError "Deserialization error",
        Effect.logErrorRaw buffer], 4 + buffer.length⟩ := by
    rw [handle_client, hr]
    simp only [hlen, hr2, hdec,
      if_neg (show ¬ 10 * 1024 * 1024 < buffer.length by omega)]
  exact ⟨h1, by rw [h1]; simp [isPersist]⟩

theorem handle_client_decode_failure_witness :
    (([0, 0, 0, 1] : List Nat).length = 4 ∧
     u32be [0, 0, 0, 1] = ([255] : List Nat).length ∧
     ([255] : List Nat).length ≤ 10 * 1024 * 1024 ∧
     decode [255] = none) ∧
    (handle_client (fun _ => true) ⟨fun _ => false, true, true, true⟩
        ([0, 0, 0, 1] ++ ([255] ++ [])) 0 =
      ⟨[Effect.logInfo "Message length received",
        Effect.logInfo "Buffer allocated",
        Effect.logInfo "Message received",
        Effect.logError "Deserialization error",
        Effect.logErrorRaw [255]], 4 + ([255] : List Nat).length⟩ ∧
     (handle_client (fun _ => true) ⟨fun _ => false, true, true, true⟩
        ([0, 0, 0, 1] ++ ([255] ++ [])) 0).effects.filter isPersist = []) :=
  ⟨⟨by decide, by decide, by decide, by decide⟩,
   handle_client_decode_failure _ _ _ _ _ _ (by decide) (by decide)
     (by decide) (by decide)⟩

theorem spawn_mem_start_server (l : List LoopEvent) (c : Nat)
    (h : ServerAction.spawnHandler c ∈ start_server l) :
    LoopEvent.accept c ∈ l := by
  induction l with
  | nil => simp [start_server] at h
  | cons e t ih =>
    cases e with
    | accept c0 =>
      rw [start_server] at h
      rcases List.mem_cons.mp h with h | h
      · simp [ServerAction.spawnHandler.injEq] at h
        simp [h]
      · exact List.mem_cons_of_mem _ (ih h)
    | shutdown =>
      rw [start_server] at h
      simp at h

theorem start_server_no_cancel (l : List LoopEvent) :
    ∀ a ∈ start_server l, ∀ c,
      a ≠ ServerAction.cancelHandler c ∧ a ≠ ServerAction.awaitHandler c := by
  induction l with
  | nil => simp [start_server]
  | cons e t ih =>
    cases e with
    | accept c0 =>
      rw [start_server]
      intro a ha c
      rcases List.mem_cons.mp ha with h | h
      · subst h; exact ⟨by simp, by simp⟩
      · exact ih a h c
    | shutdown =>
      rw [start_server]
      intro a ha c
      simp at ha
      subst ha
      exact ⟨by simp, by simp⟩

theorem start_server_append_shutdown (before after : List LoopEvent)
    (h : LoopEvent.shutdown ∉ before) :
    start_server (before ++ LoopEvent.shutdown :: after) =
      start_server before ++ [ServerAction.stopAccepting] ∧
    accepted (before ++ LoopEvent.shutdown :: after) = accepted before := by
  induction before with
  | nil => simp [start_server, accepted]
  | cons e t ih =>
    cases e with
    | accept c0 =>
      have ht : LoopEvent.shutdown ∉ t := fun hm => h (List.mem_cons_of_mem _ hm)
      obtain ⟨ih1, ih2⟩ := ih ht
      constructor
      · rw [List.cons_append, start_server, ih1, start_server, List.cons_append]
      · rw [List.cons_append, accepted, ih2, accepted]
    | shutdown => exact absurd (by simp) h

/-- C8: once the shutdown event resolves, the accept loop stops — no
handler is spawned for any connection arriving after it (every spawned
handler traces back to an accept before the shutdown) — and the trace
contains no cancel or await of the already-spawned handler tasks before
the loop ends. -/
theorem start_server_shutdown_behavior (before after : List LoopEvent)
    (h : LoopEvent.shutdown ∉ before) :
    start_server (before ++ LoopEvent.shutdown :: after) =
      start_server before ++ [ServerAction.stopAccepting] ∧
    (∀ c, ServerAction.spawnHandler c ∈
        start_server (before ++ LoopEvent.shutdown :: after) →
      LoopEvent.accept c ∈ before) ∧
    (∀ a ∈ start_server (before ++ LoopEvent.shutdown :: after), ∀ c,
      a ≠ ServerAction.cancelHandler c ∧ a ≠ ServerAction.awaitHandler c) ∧
    accepted (before ++ LoopEvent.shutdown :: after) = accepted before := by
  obtain ⟨h1, h2⟩ := start_server_append_shutdown before after h
  refine ⟨h1, ?_, start_server_no_cancel _, h2⟩
  intro c hc
  rw [h1] at hc
  rcases List.mem_append.mp hc with hc | hc
  · exact spawn_mem_start_server before c hc
  · simp at hc

theorem start_server_shutdown_behavior_witness :
    (LoopEvent.shutdown ∉ [LoopEvent.accept 1, LoopEvent.accept 2]) ∧
    (start_server ([LoopEvent.accept 1, LoopEvent.accept 2] ++
        LoopEvent.shutdown :: [LoopEvent.accept 3]) =
      start_server [LoopEvent.accept 1, LoopEvent.accept 2] ++
        [ServerAction.stopAccepting] ∧
     (∀ c, ServerAction.spawnHandler c ∈
         start_server ([LoopEvent.accept 1, LoopEvent.accept 2] ++
           LoopEvent.shutdown :: [LoopEvent.accept 3]) →
       LoopEvent.accept c ∈ [LoopEvent.accept 1, LoopEvent.accept 2]) ∧
     (∀ a ∈ start_server ([LoopEvent.accept 1, LoopEvent.accept 2] ++
         LoopEvent.shutdown :: [LoopEvent.accept 3]), ∀ c,
       a ≠ ServerAction.cancelHandler c ∧ a ≠ ServerAction.awaitHandler c) ∧
     accepted ([LoopEvent.accept 1, LoopEvent.accept 2] ++
         LoopEvent.shutdown :: [LoopEvent.accept 3]) =
       accepted [LoopEvent.accept 1, LoopEvent.accept 2]) :=
  ⟨by decide,
   start_server_shutdown_behavior [LoopEvent.accept 1, LoopEvent.accept 2]
     [LoopEvent.accept 3] (by decide)⟩

/-- C9: a frame declaring length zero passes the size check and the
zero-byte payload read, but the empty payload never decodes, so
handle_client logs a deserialization error (with the empty raw buffer) and
returns with nothing persisted, having consumed only the 4 prefix
bytes. -/
theorem handle_client_zero_length_frame (imgOk : List Nat → Bool)
    (fs : FSModel) (rest : List Nat) (ts : Nat) :
    handle_client imgOk fs (0 :: 0 :: 0 :: 0 :: rest) ts =
      ⟨[Effect.logInfo "Message length received",
        Effect.logInfo "Buffer allocated",
        Effect.logInfo "Message received",
        Effect.logError "Deserialization error",
        Effect.logErrorRaw []], 4⟩ ∧
    (handle_client imgOk fs (0 :: 0 :: 0 :: 0 :: rest) ts).effects.filter
      isPersist = [] := by
  have hr : readExact 4 (0 :: 0 :: 0 :: 0 :: rest) =
      some ([0, 0, 0, 0], rest) := by
    rw [show (0 :: 0 :: 0 :: 0 :: rest : List Nat) = [0, 0, 0, 0] ++ rest
      from rfl]
    exact readExact_append _ _ 4 rfl
  have hr0 : readExact (u32be [0, 0, 0, 0]) rest = some ([], rest) := by
    show readExact 0 rest = some ([], rest)
    rw [readExact]
    simp
  have h1 : handle_client imgOk fs (0 :: 0 :: 0 :: 0 :: rest) ts =
      ⟨[Effect.logInfo "Message length received",
        Effect.logInfo "Buffer allocated",
        Effect.logInfo "Message received",
        Effect.logError "Deserialization error",
        Effect.logErrorRaw []], 4⟩ := by
    rw [handle_client, hr]
    simp only [hr0, if_neg (show ¬ 10 * 1024 * 1024 < u32be [0, 0, 0, 0]
      by decide)]
    rfl
  exact ⟨h1, by rw [h1]; decide⟩

/-- C10: save_image creates the images base directory before attempting to
decode the payload, so a payload that is not a decodable image still
leaves the directory-creation effect in the trace (strictly before the
decode attempt) while writing no file at all. -/
theorem save_image_mkdir_before_decode (imgOk : List Nat → Bool)
    (fs : FSModel) (name data : List Nat) (ts : Nat)
    (hmk : fs.imagesMkdirOk = true) (hbad : imgOk data = false) :
    save_image imgOk fs name data ts =
      [Effect.logInfo "Identified message as an image.",
       Effect.mkdir imageStorePath,
       Effect.imgDecodeAttempt data,
       Effect.logError "Could not save image as PNG"] ∧
    (save_image imgOk fs name data ts).filter isPersist = [] := by
  have h1 : save_image imgOk fs name data ts =
      [Effect.logInfo "Identified message as an image.",
       Effect.mkdir imageStorePath,
       Effect.imgDecodeAttempt data,
       Effect.logError "Could not save image as PNG"] := by
    simp [save_image, save_as_png, hmk, hbad]
  exact ⟨h1, by rw [h1]; simp [isPersist]⟩

theorem save_image_mkdir_before_decode_witness :
    ((⟨fun _ => true, true, true, true⟩ : FSModel).imagesMkdirOk = true ∧
     (fun _ => false : List Nat → Bool) [1, 2, 3] = false) ∧
    (save_image (fun _ => false) ⟨fun _ => true, true, true, true⟩
        [120] [1, 2, 3] 8 =
      [Effect.logInfo "Identified message as an image.",
       Effect.mkdir imageStorePath,
       Effect.imgDecodeAttempt [1, 2, 3],
       Effect.logError "Could not save image as PNG"] ∧
     (save_image (fun _ => false) ⟨fun _ => true, true, true, true⟩
        [120] [1, 2, 3] 8).filter isPersist = []) :=
  ⟨⟨by decide, by decide⟩,
   save_image_mkdir_before_decode _ _ _ _ _ (by decide) (by decide)⟩

end RdRust
